import Mathlib

/-!
Verification of the CTAP2 authenticator core of `passkey-rs`
(`passkey-authenticator/src/authenticator/make_credential.rs` and
`passkey-authenticator/src/authenticator/get_assertion.rs`).

The two operations are embedded as pure Lean functions.  Collaborators
(the credential store, the user-validation method, the extension
processor, the key codec and the random generators) are passed in as an
environment of functions returning `Except StatusCode _`, mirroring the
Rust trait objects returning `Result<_, StatusCode>`.  Each operation
additionally returns the ordered list of collaborator events it
performed (store reads/writes, the consent ceremony, and the final
signing), so that ordering and absence-of-call properties can be stated.
-/

/-- Status codes from the closed error taxonomy (spec section 7); the Rust
`StatusCode` lives in `passkey-types` outside the two source files, so
collaborator-originated errors are modelled by the extra `other`
constructor carrying an arbitrary tag. -/
inductive StatusCode where
  | pinAuthInvalid
  | unsupportedOption
  | invalidOption
  | credentialExcluded
  | unsupportedAlgorithm
  | noCredentials
  | operationDenied
  | other (tag : Nat)
deriving DecidableEq

/-- User-verification flags: the `Flags` bit-set restricted to the two bits
this core reads (user-present, user-verified). -/
structure Flags where
  up : Bool
  uv : Bool
deriving DecidableEq

/-- A `PublicKeyCredentialDescriptor` restricted to the only field the core
compares: the credential id (opaque bytes, modelled as a `Nat`). -/
structure Descriptor where
  id : Nat
deriving DecidableEq

/-- The `Passkey` record, with the fields used by the two operations
(`key`, `rp_id`, `credential_id`, `user_handle`, `counter`,
`extensions`); opaque byte-string payloads are modelled as `Nat`.
The counter is a `u32` in Rust, so arithmetic on it is taken mod 2^32. -/
structure Passkey where
  key : Nat
  credential_id : Nat
  rp_id : String
  user_handle : Option Nat
  counter : Option Nat
  extensions : Nat
deriving DecidableEq

/-- The `{rk, up, uv}` options bundle.  Rust uses one such struct per
operation with identical fields; a single type stands for both. -/
structure Options where
  rk : Bool
  up : Bool
  uv : Bool
deriving DecidableEq

/-- `webauthn::PublicKeyCredentialUserEntity`: user id plus display names. -/
structure PublicKeyCredentialUserEntity where
  id : Nat
  display_name : String
  name : String
deriving DecidableEq

/-- `PublicKeyCredentialRpEntity`: relying-party id and optional name. -/
structure RpEntity where
  id : String
  name : Option String
deriving DecidableEq

/-- The attested credential block: authenticator identity, credential id
and encoded public key. -/
structure AttestedCredentialData where
  aaguid : Nat
  credential_id : Nat
  public_key : Nat
deriving DecidableEq

/-- `AuthenticatorData` as assembled by the two operations:
`AuthenticatorData::new(rp_id, counter)` then `set_flags`, optionally
`set_attested_credential_data`, and the extension payload setter. -/
structure AuthenticatorData where
  rp_id : String
  counter : Option Nat
  flags : Flags
  attested_credential_data : Option AttestedCredentialData
  extensions : Option Nat
deriving DecidableEq

/-- `get_assertion::Request`. -/
structure GetRequest where
  rp_id : String
  client_data_hash : List Nat
  allow_list : Option (List Descriptor)
  extensions : Option Nat
  pin_auth : Option (List Nat)
  pin_protocol : Option Nat
  options : Options
deriving DecidableEq

/-- `get_assertion::Response`. -/
structure GetResponse where
  credential : Option Descriptor
  auth_data : AuthenticatorData
  signature : List Nat
  user : Option PublicKeyCredentialUserEntity
  number_of_credentials : Option Nat
  unsigned_extension_outputs : Option Nat
deriving DecidableEq

/-- `make_credential::Request`.  Algorithm identifiers are opaque `Int`s
(COSE algorithm ids). -/
structure MakeRequest where
  client_data_hash : List Nat
  rp : RpEntity
  user : PublicKeyCredentialUserEntity
  pub_key_cred_params : List Int
  exclude_list : Option (List Descriptor)
  extensions : Option Nat
  options : Options
  pin_auth : Option (List Nat)
  pin_protocol : Option Nat
deriving DecidableEq

/-- `make_credential::Response`; the empty CBOR attestation-statement map
is modelled as an empty list. -/
structure MakeResponse where
  fmt : String
  auth_data : AuthenticatorData
  att_stmt : List Nat
  ep_att : Option Bool
  large_blob_key : Option Nat
  unsigned_extension_outputs : Option Nat
deriving DecidableEq

/-- Result of `get_extensions` (assertion-side extension processing):
signed and unsigned payloads, both optional. -/
structure AssertionExtensions where
  signed : Option Nat
  unsigned : Option Nat
deriving DecidableEq

/-- Result of `make_extensions` (creation-side extension processing):
signed and unsigned payloads plus the per-credential stored data. -/
structure MakeExtensions where
  signed : Option Nat
  unsigned : Option Nat
  credential : Nat
deriving DecidableEq

deriving instance DecidableEq for Except

/-- Observable collaborator events, recorded in the order the operation
performs them.  `findCredentials` / `updateCredential` /
`saveCredential` are the Credential Store calls, `checkUser` is the
consent ceremony, `signed` marks the final signature computation. -/
inductive Event where
  | findCredentials (ids : Option (List Descriptor)) (rp_id : String)
      (result : Except StatusCode (List Passkey))
  | checkUser (credential : Option Passkey) (result : Except StatusCode Flags)
  | updateCredential (credential : Passkey) (result : Except StatusCode Unit)
  | saveCredential (credential : Passkey) (result : Except StatusCode Unit)
  | signed
deriving DecidableEq

/-- Store-write events (`update_credential` or `save_credential`). -/
def Event.isWrite : Event → Bool
  | .updateCredential _ _ => true
  | .saveCredential _ _ => true
  | _ => false

/-- Collaborators of `get_assertion`: the store (`find_credentials`,
`update_credential`), the user-validation helper (`check_user`), the
extension processor, the key codec and the signer. -/
structure GetEnv where
  find_credentials : Option (List Descriptor) → String → Except StatusCode (List Passkey)
  check_user : Options → Option Passkey → Except StatusCode Flags
  update_credential : Passkey → Except StatusCode Unit
  get_extensions : Passkey → Option Nat → Bool → Except StatusCode AssertionExtensions
  set_assertion_extensions : Option Nat → Except StatusCode (Option Nat)
  private_key_from_cose_key : Nat → Except StatusCode Nat
  sign : Nat → AuthenticatorData → List Nat → List Nat

/-- Collaborators and configuration of `make_credential`: the store
(`find_credentials`, `save_credential`, discoverability capability),
`check_user`, `choose_algorithm`, the extension processor, the fresh
randomness (credential id and secret key), the key codec and the
authenticator identity / counter-enablement configuration. -/
structure MakeEnv where
  check_user : Options → Option Passkey → Except StatusCode Flags
  find_credentials : Option (List Descriptor) → String → Except StatusCode (List Passkey)
  choose_algorithm : List Int → Except StatusCode Int
  get_info_rk : Bool
  make_extensions : Option Nat → Bool → Except StatusCode MakeExtensions
  set_make_credential_extensions : Option Nat → Except StatusCode (Option Nat)
  credential_id : Nat
  secret_key : Nat
  cose_key_pair : Nat → Int → Nat × Nat
  aaguid : Nat
  make_credentials_with_signature_counter : Bool
  save_credential : Passkey → PublicKeyCredentialUserEntity → RpEntity → Options →
      Except StatusCode Unit

/-- `o.as_deref().filter(|inner| !inner.is_empty())`: drop an empty list. -/
def nonempty_only (o : Option (List α)) : Option (List α) :=
  match o with
  | some l => if l.isEmpty then none else some l
  | none => none

/-- The signature-counter increment `counter + 1` on a `u32`
(wrapping semantics, hence mod 2^32). -/
def next_counter (n : Nat) : Nat := (n + 1) % 2 ^ 32

/-- Tail of `get_assertion` after the counter update: extension
processing, authenticator-data assembly, key decoding and signing
(get_assertion.rs lines 127-163). -/
def ga_sign (env : GetEnv) (input : GetRequest) (flags : Flags) (credential : Passkey)
    (t : List Event) : Except StatusCode GetResponse × List Event :=
  match env.get_extensions credential input.extensions flags.uv with
  | .error e => (.error e, t)
  | .ok exts =>
    match env.set_assertion_extensions exts.signed with
    | .error e => (.error e, t)
    | .ok ext_data =>
      let auth_data : AuthenticatorData :=
        { rp_id := input.rp_id
          counter := credential.counter
          flags := flags
          attested_credential_data := none
          extensions := ext_data }
      match env.private_key_from_cose_key credential.key with
      | .error e => (.error e, t)
      | .ok secret_key =>
        let signature := env.sign secret_key auth_data input.client_data_hash
        (.ok
          { credential := some { id := credential.credential_id }
            auth_data := auth_data
            signature := signature
            user := credential.user_handle.map
              (fun uid => { id := uid, display_name := "", name := "" })
            number_of_credentials := none
            unsigned_extension_outputs := exts.unsigned },
          t ++ [Event.signed])

/-- Middle of `get_assertion` after the consent ceremony succeeded and a
credential was located: the WebAuthn-9 counter increment and store
update (get_assertion.rs lines 120-125). -/
def ga_after_consent (env : GetEnv) (input : GetRequest) (flags : Flags)
    (credential : Passkey) (t : List Event) : Except StatusCode GetResponse × List Event :=
  match credential.counter with
  | some counter =>
    let updated := { credential with counter := some (next_counter counter) }
    let upd_res := env.update_credential updated
    let t2 := t ++ [Event.updateCredential updated upd_res]
    match upd_res with
    | .error e => (.error e, t2)
    | .ok _ => ga_sign env input flags updated t2
  | none => ga_sign env input flags credential t

/-- Step 1 of `get_assertion` (get_assertion.rs lines 32-42): the
`find_credentials(filtered allow_list, rp_id)` call with its
`.and_then(|c| c.into_iter().next().ok_or(NoCredentials))` chain, which
yields the single surfaced candidate or an error. -/
def located_credential (env : GetEnv) (input : GetRequest) : Except StatusCode Passkey :=
  match env.find_credentials (nonempty_only input.allow_list) input.rp_id with
  | .error e => .error e
  | .ok [] => .error .noCredentials
  | .ok (c :: _) => .ok c

/-- `Authenticator::get_assertion` (get_assertion.rs lines 22-164).
Step 1 records the store lookup and computes `located_credential`, then
the pinAuth and "rk" gates run, then the consent ceremony, and only then
is the lookup outcome surfaced.  The generic `try_into` conversion of
the located item is the identity here since the store item type is
instantiated at `Passkey` itself. -/
def get_assertion (env : GetEnv) (input : GetRequest) :
    Except StatusCode GetResponse × List Event :=
  let find_arg := nonempty_only input.allow_list
  let t0 := [Event.findCredentials find_arg input.rp_id
    (env.find_credentials find_arg input.rp_id)]
  let maybe_credential := located_credential env input
  if input.pin_auth.isSome then
    (.error .pinAuthInvalid, t0)
  else if input.options.rk then
    (.error .unsupportedOption, t0)
  else
    let located := maybe_credential.toOption
    let cu_res := env.check_user input.options located
    let t1 := t0 ++ [Event.checkUser located cu_res]
    match cu_res with
    | .error e => (.error e, t1)
    | .ok flags =>
      match maybe_credential with
      | .error e => (.error e, t1)
      | .ok credential => ga_after_consent env input flags credential t1

/-- Tail of `make_credential` after the exclude-list gate: algorithm
selection, the "rk" capability gate, the pinAuth gate, extension
processing, credential construction, authenticator-data assembly and the
final store save (make_credential.rs lines 47-160). -/
def mc_after_exclude (env : MakeEnv) (input : MakeRequest) (flags : Flags)
    (t : List Event) : Except StatusCode MakeResponse × List Event :=
  match env.choose_algorithm input.pub_key_cred_params with
  | .error e => (.error e, t)
  | .ok algorithm =>
    if input.options.rk && !env.get_info_rk then
      (.error .unsupportedOption, t)
    else if input.pin_auth.isSome then
      (.error .unsupportedOption, t)
    else
      match env.make_extensions input.extensions input.options.uv with
      | .error e => (.error e, t)
      | .ok exts =>
        let pair := env.cose_key_pair env.secret_key algorithm
        let passkey : Passkey :=
          { key := pair.2
            rp_id := input.rp.id
            credential_id := env.credential_id
            user_handle := if input.options.rk then some input.user.id else none
            counter := if env.make_credentials_with_signature_counter then some 0 else none
            extensions := exts.credential }
        let acd : AttestedCredentialData :=
          { aaguid := env.aaguid
            credential_id := passkey.credential_id
            public_key := pair.1 }
        match env.set_make_credential_extensions exts.signed with
        | .error e => (.error e, t)
        | .ok ext_data =>
          let auth_data : AuthenticatorData :=
            { rp_id := input.rp.id
              counter := passkey.counter
              flags := flags
              attested_credential_data := some acd
              extensions := ext_data }
          let response : MakeResponse :=
            { fmt := "None"
              auth_data := auth_data
              att_stmt := []
              ep_att := none
              large_blob_key := none
              unsigned_extension_outputs := exts.unsigned }
          let save_res := env.save_credential passkey input.user input.rp input.options
          let t2 := t ++ [Event.saveCredential passkey save_res]
          match save_res with
          | .error e => (.error e, t2)
          | .ok _ => (.ok response, t2)

/-- Middle of `make_credential` after the consent ceremony: the
exclude-list check (make_credential.rs lines 31-45).  The full (unfiltered)
exclude list is passed to the store, as in the source.  The
`if let Ok(false) = .. map(is_empty)` pattern means a store error here is
swallowed and the operation continues; only `Ok` of a non-empty list
triggers `CredentialExcluded`. -/
def mc_after_consent (env : MakeEnv) (input : MakeRequest) (flags : Flags)
    (t : List Event) : Except StatusCode MakeResponse × List Event :=
  if (nonempty_only input.exclude_list).isSome then
    let find_res := env.find_credentials input.exclude_list input.rp.id
    let t1 := t ++ [Event.findCredentials input.exclude_list input.rp.id find_res]
    match find_res with
    | .ok creds =>
      if creds.isEmpty then mc_after_exclude env input flags t1
      else (.error .credentialExcluded, t1)
    | .error _ => mc_after_exclude env input flags t1
  else
    mc_after_exclude env input flags t

/-- `Authenticator::make_credential` (make_credential.rs lines 18-161).
User presence must be requested, otherwise `InvalidOption`; the consent
ceremony runs first (with no credential), then the exclude-list check
and the rest of the procedure. -/
def make_credential (env : MakeEnv) (input : MakeRequest) :
    Except StatusCode MakeResponse × List Event :=
  if input.options.up then
    let cu_res := env.check_user input.options none
    let t0 := [Event.checkUser none cu_res]
    match cu_res with
    | .error e => (.error e, t0)
    | .ok flags => mc_after_consent env input flags t0
  else
    (.error .invalidOption, [])

/-- The step-1 find event of a `get_assertion` run. -/
def ga_find_event (env : GetEnv) (input : GetRequest) : Event :=
  Event.findCredentials (nonempty_only input.allow_list) input.rp_id
    (env.find_credentials (nonempty_only input.allow_list) input.rp_id)

/-- The consent-ceremony event of a `get_assertion` run that reaches the
consent step. -/
def ga_consent_event (env : GetEnv) (input : GetRequest) : Event :=
  Event.checkUser (located_credential env input).toOption
    (env.check_user input.options (located_credential env input).toOption)

/-- Exhaustive case analysis of a `get_assertion` run: the pinAuth gate,
the "rk" gate, a consent failure, a surfaced lookup failure, or the
post-consent continuation. -/
theorem get_assertion_cases (env : GetEnv) (input : GetRequest) :
    (input.pin_auth.isSome = true ∧
      get_assertion env input = (.error .pinAuthInvalid, [ga_find_event env input])) ∨
    (input.pin_auth = none ∧ input.options.rk = true ∧
      get_assertion env input = (.error .unsupportedOption, [ga_find_event env input])) ∨
    (input.pin_auth = none ∧ input.options.rk = false ∧
      ((∃ e, env.check_user input.options (located_credential env input).toOption = .error e ∧
          get_assertion env input =
            (.error e, [ga_find_event env input, ga_consent_event env input])) ∨
       (∃ flags e,
          env.check_user input.options (located_credential env input).toOption = .ok flags ∧
          located_credential env input = .error e ∧
          get_assertion env input =
            (.error e, [ga_find_event env input, ga_consent_event env input])) ∨
       (∃ flags credential,
          env.check_user input.options (located_credential env input).toOption = .ok flags ∧
          located_credential env input = .ok credential ∧
          get_assertion env input = ga_after_consent env input flags credential
            [ga_find_event env input, ga_consent_event env input]))) := by
  cases hp : input.pin_auth with
  | some v =>
    left
    refine ⟨by simp [hp], ?_⟩
    simp [get_assertion, ga_find_event, hp]
  | none =>
    cases hr : input.options.rk with
    | true =>
      right; left
      refine ⟨rfl, rfl, ?_⟩
      simp [get_assertion, ga_find_event, hp, hr]
    | false =>
      right; right
      refine ⟨rfl, rfl, ?_⟩
      cases hcu : env.check_user input.options (located_credential env input).toOption with
      | error e =>
        left
        refine ⟨e, rfl, ?_⟩
        simp [get_assertion, ga_find_event, ga_consent_event, hp, hr, hcu]
      | ok flags =>
        right
        cases hmc : located_credential env input with
        | error e =>
          left
          refine ⟨flags, e, rfl, rfl, ?_⟩
          simp only [get_assertion, ga_find_event, ga_consent_event]
          rw [hp, hr, hcu, hmc]
          simp [hmc]
        | ok credential =>
          right
          refine ⟨flags, credential, rfl, rfl, ?_⟩
          simp only [get_assertion, ga_find_event, ga_consent_event]
          rw [hp, hr, hcu, hmc]
          simp [hmc]

/-- The events appended by `ga_sign` are at most the final `signed` marker. -/
theorem ga_sign_trace (env : GetEnv) (input : GetRequest) (flags : Flags)
    (credential : Passkey) (t : List Event) :
    ∃ t2, (ga_sign env input flags credential t).2 = t ++ t2 ∧
      ∀ e ∈ t2, e = Event.signed := by
  cases h1 : env.get_extensions credential input.extensions flags.uv with
  | error e => exact ⟨[], by simp [ga_sign, h1]⟩
  | ok exts =>
    cases h2 : env.set_assertion_extensions exts.signed with
    | error e => exact ⟨[], by simp [ga_sign, h1, h2]⟩
    | ok ext_data =>
      cases h3 : env.private_key_from_cose_key credential.key with
      | error e => exact ⟨[], by simp [ga_sign, h1, h2, h3]⟩
      | ok sk =>
        refine ⟨[Event.signed], ?_, by simp⟩
        simp [ga_sign, h1, h2, h3]

/-- The events appended by `ga_after_consent` are at most one
`updateCredential` event of the counter-incremented credential followed
by the `signed` marker. -/
theorem ga_after_consent_trace (env : GetEnv) (input : GetRequest) (flags : Flags)
    (credential : Passkey) (t : List Event) :
    ∃ t2, (ga_after_consent env input flags credential t).2 = t ++ t2 ∧
      ∀ e ∈ t2, e = Event.signed ∨
        ∃ n, credential.counter = some n ∧
          e = Event.updateCredential { credential with counter := some (next_counter n) }
            (env.update_credential { credential with counter := some (next_counter n) }) := by
  cases hc : credential.counter with
  | none =>
    obtain ⟨t2, h2, h3⟩ := ga_sign_trace env input flags credential t
    exact ⟨t2, by simp [ga_after_consent, hc, h2], fun e he => Or.inl (h3 e he)⟩
  | some n =>
    cases hu : env.update_credential { credential with counter := some (next_counter n) } with
    | error e =>
      refine ⟨[Event.updateCredential { credential with counter := some (next_counter n) }
        (.error e)], ?_, ?_⟩
      · simp [ga_after_consent, hc, hu]
      · intro e' he'
        simp only [List.mem_singleton] at he'
        exact Or.inr ⟨n, rfl, by rw [he', hu]⟩
    | ok u =>
      obtain ⟨t2, h2, h3⟩ := ga_sign_trace env input flags
        { credential with counter := some (next_counter n) }
        (t ++ [Event.updateCredential { credential with counter := some (next_counter n) }
          (.ok u)])
      refine ⟨Event.updateCredential { credential with counter := some (next_counter n) }
        (.ok u) :: t2, ?_, ?_⟩
      · simp only [ga_after_consent, hc, hu]
        rw [h2]
        simp
      · intro e' he'
        rcases List.mem_cons.mp he' with h | h
        · exact Or.inr ⟨n, rfl, by rw [h, hu]⟩
        · exact Or.inl (h3 e' h)

/-- Shape of a `mc_after_exclude` run: either it fails at one of the
gates before the save, leaving the trace untouched, or it appends
exactly one `saveCredential` event for the freshly built passkey (whose
relying party is the request's and whose counter is `some 0` or `none`
per the counter-enablement flag) and succeeds exactly when the save
does, propagating a save error verbatim. -/
theorem mc_after_exclude_shape (env : MakeEnv) (input : MakeRequest) (flags : Flags)
    (t : List Event) :
    ((mc_after_exclude env input flags t).2 = t ∧
      ∃ e, (mc_after_exclude env input flags t).1 = .error e) ∨
    (∃ pk, input.pin_auth = none ∧
      pk.rp_id = input.rp.id ∧
      pk.counter = (if env.make_credentials_with_signature_counter then some 0 else none) ∧
      pk.credential_id = env.credential_id ∧
      pk.user_handle = (if input.options.rk then some input.user.id else none) ∧
      (mc_after_exclude env input flags t).2 =
        t ++ [Event.saveCredential pk (env.save_credential pk input.user input.rp input.options)] ∧
      ((∃ e, env.save_credential pk input.user input.rp input.options = .error e ∧
          (mc_after_exclude env input flags t).1 = .error e) ∨
       (∃ u resp, env.save_credential pk input.user input.rp input.options = .ok u ∧
          (mc_after_exclude env input flags t).1 = .ok resp))) := by
  cases halg : env.choose_algorithm input.pub_key_cred_params with
  | error e => exact Or.inl ⟨by simp [mc_after_exclude, halg], e, by simp [mc_after_exclude, halg]⟩
  | ok algorithm =>
    cases hgate : input.options.rk && !env.get_info_rk with
    | true =>
      exact Or.inl ⟨by simp [mc_after_exclude, halg, hgate], .unsupportedOption,
        by simp [mc_after_exclude, halg, hgate]⟩
    | false =>
      cases hpin : input.pin_auth with
      | some v =>
        exact Or.inl ⟨by simp [mc_after_exclude, halg, hgate, hpin], .unsupportedOption,
          by simp [mc_after_exclude, halg, hgate, hpin]⟩
      | none =>
        cases hext : env.make_extensions input.extensions input.options.uv with
        | error e =>
          exact Or.inl ⟨by simp [mc_after_exclude, halg, hgate, hpin, hext], e,
            by simp [mc_after_exclude, halg, hgate, hpin, hext]⟩
        | ok exts =>
          cases hset : env.set_make_credential_extensions exts.signed with
          | error e =>
            exact Or.inl ⟨by simp [mc_after_exclude, halg, hgate, hpin, hext, hset], e,
              by simp [mc_after_exclude, halg, hgate, hpin, hext, hset]⟩
          | ok ext_data =>
            refine Or.inr ⟨{ key := (env.cose_key_pair env.secret_key algorithm).2
                             rp_id := input.rp.id
                             credential_id := env.credential_id
                             user_handle :=
                               if input.options.rk then some input.user.id else none
                             counter :=
                               if env.make_credentials_with_signature_counter then some 0
                               else none
                             extensions := exts.credential },
              rfl, rfl, rfl, rfl, rfl, ?_, ?_⟩
            · cases hsave : env.save_credential _ input.user input.rp input.options <;>
                simp [mc_after_exclude, halg, hgate, hpin, hext, hset, hsave]
            · cases hsave : env.save_credential _ input.user input.rp input.options with
              | error e =>
                exact Or.inl ⟨e, rfl,
                  by simp [mc_after_exclude, halg, hgate, hpin, hext, hset, hsave]⟩
              | ok u =>
                have hres : (mc_after_exclude env input flags t).1 = .ok
                    { fmt := "None"
                      auth_data :=
                        { rp_id := input.rp.id
                          counter :=
                            if env.make_credentials_with_signature_counter then some 0
                            else none
                          flags := flags
                          attested_credential_data := some
                            { aaguid := env.aaguid
                              credential_id := env.credential_id
                              public_key := (env.cose_key_pair env.secret_key algorithm).1 }
                          extensions := ext_data }
                      att_stmt := []
                      ep_att := none
                      large_blob_key := none
                      unsigned_extension_outputs := exts.unsigned } := by
                  simp [mc_after_exclude, halg, hgate, hpin, hext, hset, hsave]
                exact Or.inr ⟨u, _, rfl, hres⟩

/-- The exclude-list lookup event of a `make_credential` run that
performs the exclude check. -/
def mc_find_event (env : MakeEnv) (input : MakeRequest) : Event :=
  Event.findCredentials input.exclude_list input.rp.id
    (env.find_credentials input.exclude_list input.rp.id)

/-- Exhaustive case analysis of the exclude-list check: no (or empty)
exclude list skips the lookup; a lookup returning a non-empty list fails
with `CredentialExcluded`; a lookup returning the empty list or an error
(the error is swallowed) lets the operation continue. -/
theorem mc_after_consent_cases (env : MakeEnv) (input : MakeRequest) (flags : Flags)
    (t : List Event) :
    ((nonempty_only input.exclude_list).isSome = false ∧
      mc_after_consent env input flags t = mc_after_exclude env input flags t) ∨
    ((nonempty_only input.exclude_list).isSome = true ∧
      ((∃ c cs, env.find_credentials input.exclude_list input.rp.id = .ok (c :: cs) ∧
          mc_after_consent env input flags t =
            (.error .credentialExcluded, t ++ [mc_find_event env input])) ∨
       ((env.find_credentials input.exclude_list input.rp.id = .ok [] ∨
           ∃ e, env.find_credentials input.exclude_list input.rp.id = .error e) ∧
          mc_after_consent env input flags t =
            mc_after_exclude env input flags (t ++ [mc_find_event env input])))) := by
  cases hne : (nonempty_only input.exclude_list).isSome with
  | false => exact Or.inl ⟨rfl, by simp [mc_after_consent, hne]⟩
  | true =>
    refine Or.inr ⟨rfl, ?_⟩
    cases hf : env.find_credentials input.exclude_list input.rp.id with
    | error e =>
      exact Or.inr ⟨Or.inr ⟨e, rfl⟩, by simp [mc_after_consent, mc_find_event, hne, hf]⟩
    | ok creds =>
      cases creds with
      | nil => exact Or.inr ⟨Or.inl rfl, by simp [mc_after_consent, mc_find_event, hne, hf]⟩
      | cons c cs =>
        exact Or.inl ⟨c, cs, rfl, by simp [mc_after_consent, mc_find_event, hne, hf]⟩

/-- Exhaustive case analysis of the head of `make_credential`: the
user-presence gate and the consent ceremony. -/
theorem make_credential_cases (env : MakeEnv) (input : MakeRequest) :
    (input.options.up = false ∧ make_credential env input = (.error .invalidOption, [])) ∨
    (input.options.up = true ∧
      ((∃ e, env.check_user input.options none = .error e ∧
          make_credential env input = (.error e, [Event.checkUser none (.error e)])) ∨
       (∃ flags, env.check_user input.options none = .ok flags ∧
          make_credential env input =
            mc_after_consent env input flags [Event.checkUser none (.ok flags)]))) := by
  cases hup : input.options.up with
  | false => exact Or.inl ⟨rfl, by simp [make_credential, hup]⟩
  | true =>
    refine Or.inr ⟨rfl, ?_⟩
    cases hcu : env.check_user input.options none with
    | error e => exact Or.inl ⟨e, rfl, by simp [make_credential, hup, hcu]⟩
    | ok flags => exact Or.inr ⟨flags, rfl, by simp [make_credential, hup, hcu]⟩

/-- Any `saveCredential` event produced by `mc_after_exclude` concerns
the freshly built passkey, implies the pinAuth gate was passed, and its
outcome decides the operation's outcome. -/
theorem mc_after_exclude_save_mem (env : MakeEnv) (input : MakeRequest) (flags : Flags)
    (t : List Event) (c : Passkey) (r : Except StatusCode Unit)
    (h : Event.saveCredential c r ∈ (mc_after_exclude env input flags t).2) :
    Event.saveCredential c r ∈ t ∨
    (input.pin_auth = none ∧ c.rp_id = input.rp.id ∧
      c.counter = (if env.make_credentials_with_signature_counter then some 0 else none) ∧
      r = env.save_credential c input.user input.rp input.options ∧
      ((∃ e, r = .error e ∧ (mc_after_exclude env input flags t).1 = .error e) ∨
       (∃ u resp, r = .ok u ∧ (mc_after_exclude env input flags t).1 = .ok resp))) := by
  rcases mc_after_exclude_shape env input flags t with ⟨htr, -⟩ |
    ⟨pk, hpin, hrp, hcnt, -, -, htr, hres⟩
  · rw [htr] at h
    exact Or.inl h
  · rw [htr] at h
    rcases List.mem_append.mp h with h | h
    · exact Or.inl h
    · simp only [List.mem_singleton, Event.saveCredential.injEq] at h
      obtain ⟨hc, hr⟩ := h
      subst hc
      refine Or.inr ⟨hpin, hrp, hcnt, hr, ?_⟩
      rcases hres with ⟨e, hsave, hout⟩ | ⟨u, resp, hsave, hout⟩
      · exact Or.inl ⟨e, hr.trans hsave, hout⟩
      · exact Or.inr ⟨u, resp, hr.trans hsave, hout⟩

/-- Lift of `mc_after_exclude_save_mem` over the exclude-list check. -/
theorem mc_after_consent_save_mem (env : MakeEnv) (input : MakeRequest) (flags : Flags)
    (t : List Event) (c : Passkey) (r : Except StatusCode Unit)
    (h : Event.saveCredential c r ∈ (mc_after_consent env input flags t).2) :
    Event.saveCredential c r ∈ t ∨
    (input.pin_auth = none ∧ c.rp_id = input.rp.id ∧
      c.counter = (if env.make_credentials_with_signature_counter then some 0 else none) ∧
      r = env.save_credential c input.user input.rp input.options ∧
      ((∃ e, r = .error e ∧ (mc_after_consent env input flags t).1 = .error e) ∨
       (∃ u resp, r = .ok u ∧ (mc_after_consent env input flags t).1 = .ok resp))) := by
  rcases mc_after_consent_cases env input flags t with ⟨-, heq⟩ |
    ⟨-, ⟨c0, cs, -, heq⟩ | ⟨-, heq⟩⟩
  · rw [heq] at h ⊢
    exact mc_after_exclude_save_mem env input flags t c r h
  · rw [heq] at h
    simp only [List.mem_append, List.mem_singleton] at h
    rcases h with h | h
    · exact Or.inl h
    · cases h
  · rw [heq] at h ⊢
    rcases mc_after_exclude_save_mem env input flags _ c r h with h2 | h2
    · rcases List.mem_append.mp h2 with h3 | h3
      · exact Or.inl h3
      · simp only [List.mem_singleton] at h3
        cases h3
    · exact Or.inr h2

/-- Any `saveCredential` event of a `make_credential` run concerns the
freshly built passkey (bound to the request's relying party, counter
initialized per configuration), implies the pinAuth gate was passed, and
its outcome decides the operation's outcome. -/
theorem make_save_event (env : MakeEnv) (input : MakeRequest) (c : Passkey)
    (r : Except StatusCode Unit)
    (h : Event.saveCredential c r ∈ (make_credential env input).2) :
    input.pin_auth = none ∧ c.rp_id = input.rp.id ∧
    c.counter = (if env.make_credentials_with_signature_counter then some 0 else none) ∧
    r = env.save_credential c input.user input.rp input.options ∧
    ((∃ e, r = .error e ∧ (make_credential env input).1 = .error e) ∨
     (∃ u resp, r = .ok u ∧ (make_credential env input).1 = .ok resp)) := by
  rcases make_credential_cases env input with ⟨-, heq⟩ |
    ⟨-, ⟨e, -, heq⟩ | ⟨flags, -, heq⟩⟩
  · rw [heq] at h
    cases h
  · rw [heq] at h
    simp only [List.mem_singleton] at h
    cases h
  · rw [heq] at h ⊢
    rcases mc_after_consent_save_mem env input flags _ c r h with h2 | h2
    · simp only [List.mem_singleton] at h2
      cases h2
    · exact h2

/-- `mc_after_exclude` never records an `updateCredential` event. -/
theorem mc_after_exclude_update_mem (env : MakeEnv) (input : MakeRequest) (flags : Flags)
    (t : List Event) (c : Passkey) (r : Except StatusCode Unit)
    (h : Event.updateCredential c r ∈ (mc_after_exclude env input flags t).2) :
    Event.updateCredential c r ∈ t := by
  rcases mc_after_exclude_shape env input flags t with ⟨htr, -⟩ |
    ⟨pk, -, -, -, -, -, htr, -⟩
  · rw [htr] at h
    exact h
  · rw [htr] at h
    rcases List.mem_append.mp h with h | h
    · exact h
    · simp only [List.mem_singleton] at h
      cases h

/-- `make_credential` never records an `updateCredential` event: the
creation flow performs no store update. -/
theorem make_no_update (env : MakeEnv) (input : MakeRequest) (c : Passkey)
    (r : Except StatusCode Unit) :
    Event.updateCredential c r ∉ (make_credential env input).2 := by
  intro h
  rcases make_credential_cases env input with ⟨-, heq⟩ |
    ⟨-, ⟨e, -, heq⟩ | ⟨flags, -, heq⟩⟩
  · rw [heq] at h
    cases h
  · rw [heq] at h
    simp only [List.mem_singleton] at h
    cases h
  · rw [heq] at h
    have h2 : Event.updateCredential c r ∈ (mc_after_consent env input flags
        [Event.checkUser none (.ok flags)]).2 := h
    rcases mc_after_consent_cases env input flags [Event.checkUser none (.ok flags)] with
      ⟨-, heq2⟩ | ⟨-, ⟨c0, cs, -, heq2⟩ | ⟨-, heq2⟩⟩
    · rw [heq2] at h2
      have h3 := mc_after_exclude_update_mem env input flags _ c r h2
      simp only [List.mem_singleton] at h3
      cases h3
    · rw [heq2] at h2
      simp only [List.mem_append, List.mem_singleton] at h2
      rcases h2 with h3 | h3
      · cases h3
      · cases h3
    · rw [heq2] at h2
      have h3 := mc_after_exclude_update_mem env input flags _ c r h2
      simp only [List.mem_append, List.mem_singleton] at h3
      rcases h3 with h4 | h4
      · cases h4
      · cases h4

/-- Modelled from the spec: the Credential Store contract's
find-by-optional-id-list-and-relying-party read (spec section 4.5 and
section 4.3 step 1); the concrete stores are not among the source files.
A credential matches when it is bound to the given relying-party id and,
if an id list is given, its credential id occurs in that list. -/
def store_find (store : List Passkey) (ids : Option (List Descriptor)) (rp_id : String) :
    Except StatusCode (List Passkey) :=
  .ok (store.filter (fun c =>
    c.rp_id == rp_id &&
      match ids with
      | none => true
      | some l => l.any (fun d => d.id == c.credential_id)))

/-- Verification flags of a consenting, verified user. -/
def flags_uv : Flags := { up := true, uv := true }

/-- A concrete all-succeeding collaborator environment for `get_assertion`
over a given store, used to instantiate the theorems below. -/
def genv_base (store : List Passkey) : GetEnv where
  find_credentials := store_find store
  check_user := fun _ _ => .ok flags_uv
  update_credential := fun _ => .ok ()
  get_extensions := fun _ _ _ => .ok { signed := none, unsigned := none }
  set_assertion_extensions := fun s => .ok s
  private_key_from_cose_key := fun k => .ok k
  sign := fun _ _ _ => [1]

/-- A concrete all-succeeding collaborator environment for
`make_credential` over a given store. -/
def menv_base (store : List Passkey) : MakeEnv where
  check_user := fun _ _ => .ok flags_uv
  find_credentials := store_find store
  choose_algorithm := fun _ => .ok (-7)
  get_info_rk := true
  make_extensions := fun _ _ => .ok { signed := none, unsigned := none, credential := 0 }
  set_make_credential_extensions := fun s => .ok s
  credential_id := 42
  secret_key := 5
  cose_key_pair := fun sk _ => (sk + 1, sk)
  aaguid := 0
  make_credentials_with_signature_counter := false
  save_credential := fun _ _ _ _ => .ok ()

/-- A baseline well-formed GetAssertion request. -/
def get_req_base : GetRequest where
  rp_id := "example.com"
  client_data_hash := [3]
  allow_list := none
  extensions := none
  pin_auth := none
  pin_protocol := none
  options := { rk := false, up := true, uv := true }

/-- A baseline well-formed MakeCredential request. -/
def make_req_base : MakeRequest where
  client_data_hash := [3]
  rp := { id := "example.com", name := none }
  user := { id := 7, display_name := "w", name := "a" }
  pub_key_cred_params := [-7]
  exclude_list := none
  extensions := none
  options := { rk := false, up := true, uv := true }
  pin_auth := none
  pin_protocol := none

/-- A concrete stored credential bound to the baseline relying party,
with an active signature counter. -/
def pk_demo : Passkey where
  key := 1
  credential_id := 10
  rp_id := "example.com"
  user_handle := none
  counter := some 9000
  extensions := 0

/-- Claim C1: whenever `get_assertion` returns the `NoCredentials` error,
a consent ceremony (`check_user`) was invoked and completed earlier in
the run; in the zero-matching-credentials case the ceremony receives the
absent (`none`) credential. -/
theorem get_assertion_no_credentials_implies_consent (env : GetEnv) (input : GetRequest)
    (h : (get_assertion env input).1 = .error .noCredentials) :
    (∃ c r, Event.checkUser c r ∈ (get_assertion env input).2) ∧
    (env.find_credentials (nonempty_only input.allow_list) input.rp_id = .ok [] →
      ∃ r, Event.checkUser none r ∈ (get_assertion env input).2) := by
  rcases get_assertion_cases env input with ⟨hp, heq⟩ | ⟨hp, hr, heq⟩ |
    ⟨hp, hr, ⟨e, hcu, heq⟩ | ⟨flags, e, hcu, hmc, heq⟩ | ⟨flags, credential, hcu, hmc, heq⟩⟩
  · rw [heq] at h
    simp at h
  · rw [heq] at h
    simp at h
  · refine ⟨⟨(located_credential env input).toOption,
      env.check_user input.options (located_credential env input).toOption, ?_⟩, ?_⟩
    · rw [heq]
      exact List.mem_cons_of_mem _ (List.mem_singleton.mpr rfl)
    · intro hf
      have hloc : located_credential env input = .error .noCredentials := by
        simp [located_credential, hf]
      refine ⟨env.check_user input.options none, ?_⟩
      rw [heq]
      simp [ga_consent_event, hloc, List.mem_cons, Except.toOption]
  · refine ⟨⟨(located_credential env input).toOption,
      env.check_user input.options (located_credential env input).toOption, ?_⟩, ?_⟩
    · rw [heq]
      exact List.mem_cons_of_mem _ (List.mem_singleton.mpr rfl)
    · intro hf
      have hloc : located_credential env input = .error .noCredentials := by
        simp [located_credential, hf]
      refine ⟨env.check_user input.options none, ?_⟩
      rw [heq]
      simp [ga_consent_event, hloc, List.mem_cons, Except.toOption]
  · obtain ⟨t2, htr, -⟩ := ga_after_consent_trace env input flags credential
      [ga_find_event env input, ga_consent_event env input]
    rw [heq]
    refine ⟨⟨(located_credential env input).toOption,
      env.check_user input.options (located_credential env input).toOption, ?_⟩, ?_⟩
    · rw [htr]
      refine List.mem_append_left _ ?_
      exact List.mem_cons_of_mem _ (List.mem_singleton.mpr rfl)
    · intro hf
      have hloc : located_credential env input = .error .noCredentials := by
        simp [located_credential, hf]
      rw [hloc] at hmc
      cases hmc

/-- Claim C1 witness: the empty store with a consenting user yields
`NoCredentials` and the trace indeed holds the consent event. -/
theorem get_assertion_no_credentials_implies_consent_witness :
    (∃ c r, Event.checkUser c r ∈ (get_assertion (genv_base []) get_req_base).2) ∧
    ((genv_base []).find_credentials (nonempty_only get_req_base.allow_list)
        get_req_base.rp_id = .ok [] →
      ∃ r, Event.checkUser none r ∈ (get_assertion (genv_base []) get_req_base).2) :=
  get_assertion_no_credentials_implies_consent (genv_base []) get_req_base (by decide)

/-- When the pinAuth gate trips inside `mc_after_exclude`, or any earlier
gate fails, the run errors out without touching the trace. -/
theorem mc_after_exclude_pin_some (env : MakeEnv) (input : MakeRequest) (flags : Flags)
    (t : List Event) (hpin : input.pin_auth.isSome = true) :
    (∃ e, (mc_after_exclude env input flags t).1 = .error e) ∧
    (mc_after_exclude env input flags t).2 = t := by
  rcases mc_after_exclude_shape env input flags t with ⟨htr, he⟩ |
    ⟨pk, hp, -, -, -, -, -, -⟩
  · exact ⟨he, htr⟩
  · rw [hp] at hpin
    cases hpin

/-- Claim C3 (amended): a pinAuth-bearing request always fails before any
store WRITE — neither `save_credential` nor `update_credential` is
called — but store READS are not excluded: `get_assertion` performs its
lookup before the pinAuth gate, and `make_credential` may perform the
exclude-list lookup before its pinAuth gate. -/
theorem pin_auth_fails_without_store_write :
    (∀ (env : GetEnv) (input : GetRequest), input.pin_auth.isSome = true →
      (get_assertion env input).1 = .error .pinAuthInvalid ∧
      ∀ e ∈ (get_assertion env input).2, e.isWrite = false) ∧
    (∀ (env : MakeEnv) (input : MakeRequest), input.pin_auth.isSome = true →
      (∃ e, (make_credential env input).1 = .error e) ∧
      ∀ ev ∈ (make_credential env input).2, ev.isWrite = false) := by
  constructor
  · intro env input hpin
    rcases get_assertion_cases env input with ⟨hp, heq⟩ | ⟨hp, -, -⟩ | ⟨hp, -, -⟩
    · rw [heq]
      refine ⟨rfl, ?_⟩
      intro e he
      simp only [List.mem_singleton] at he
      rw [he, ga_find_event]
      rfl
    · rw [hp] at hpin
      cases hpin
    · rw [hp] at hpin
      cases hpin
  · intro env input hpin
    rcases make_credential_cases env input with ⟨-, heq⟩ |
      ⟨-, ⟨e, -, heq⟩ | ⟨flags, -, heq⟩⟩
    · rw [heq]
      exact ⟨⟨.invalidOption, rfl⟩, by intro ev hev; cases hev⟩
    · rw [heq]
      refine ⟨⟨e, rfl⟩, ?_⟩
      intro ev hev
      simp only [List.mem_singleton] at hev
      rw [hev]
      rfl
    · rw [heq]
      rcases mc_after_consent_cases env input flags [Event.checkUser none (.ok flags)] with
        ⟨-, heq2⟩ | ⟨-, ⟨c0, cs, -, heq2⟩ | ⟨-, heq2⟩⟩
      · rw [heq2]
        obtain ⟨he, htr⟩ := mc_after_exclude_pin_some env input flags _ hpin
        refine ⟨he, ?_⟩
        rw [htr]
        intro ev hev
        simp only [List.mem_singleton] at hev
        rw [hev]
        rfl
      · rw [heq2]
        refine ⟨⟨.credentialExcluded, rfl⟩, ?_⟩
        intro ev hev
        simp only [List.mem_append, List.mem_singleton, List.mem_cons,
          List.not_mem_nil, or_false] at hev
        rcases hev with hev | hev
        · rw [hev]; rfl
        · rw [hev, mc_find_event]; rfl
      · rw [heq2]
        obtain ⟨he, htr⟩ := mc_after_exclude_pin_some env input flags _ hpin
        refine ⟨he, ?_⟩
        rw [htr]
        intro ev hev
        simp only [List.mem_append, List.mem_singleton, List.mem_cons,
          List.not_mem_nil, or_false] at hev
        rcases hev with hev | hev
        · rw [hev]; rfl
        · rw [hev, mc_find_event]; rfl

/-- Claim C3 witness: concrete pinAuth-bearing runs of both operations
fail with no write event in the trace. -/
theorem pin_auth_fails_without_store_write_witness :
    ((get_assertion (genv_base [pk_demo]) { get_req_base with pin_auth := some [0] }).1 =
        .error .pinAuthInvalid ∧
      ∀ e ∈ (get_assertion (genv_base [pk_demo])
        { get_req_base with pin_auth := some [0] }).2, e.isWrite = false) ∧
    ((∃ e, (make_credential (menv_base []) { make_req_base with pin_auth := some [0] }).1 =
        .error e) ∧
      ∀ ev ∈ (make_credential (menv_base [])
        { make_req_base with pin_auth := some [0] }).2, ev.isWrite = false) :=
  ⟨pin_auth_fails_without_store_write.1 (genv_base [pk_demo])
      { get_req_base with pin_auth := some [0] } (by decide),
    pin_auth_fails_without_store_write.2 (menv_base [])
      { make_req_base with pin_auth := some [0] } (by decide)⟩

/-- Claim C3 counterexample: a pinAuth-bearing GetAssertion has already
called the store's `find_credentials` (get_assertion.rs line 32 precedes
the pinAuth gate at line 53), so "no call to the Credential Store" is
false. -/
theorem pin_auth_store_read_counterexample :
    (get_assertion (genv_base [pk_demo]) { get_req_base with pin_auth := some [0] }).1 =
      .error .pinAuthInvalid ∧
    Event.findCredentials none "example.com" (.ok [pk_demo]) ∈
      (get_assertion (genv_base [pk_demo]) { get_req_base with pin_auth := some [0] }).2 :=
  ⟨by decide, by decide⟩

/-- Claim C4 (amended, MakeCredential half): the store save is the commit
point of `make_credential` — once `save_credential` has succeeded the
operation returns a success response. -/
theorem save_is_commit_point (env : MakeEnv) (input : MakeRequest) (c : Passkey)
    (h : Event.saveCredential c (.ok ()) ∈ (make_credential env input).2) :
    ∃ resp, (make_credential env input).1 = .ok resp := by
  obtain ⟨-, -, -, -, hres⟩ := make_save_event env input c (.ok ()) h
  rcases hres with ⟨e, habs, -⟩ | ⟨u, resp, -, hout⟩
  · cases habs
  · exact ⟨resp, hout⟩

/-- The passkey built by `make_credential (menv_base []) make_req_base`. -/
def pk_built : Passkey where
  key := 5
  credential_id := 42
  rp_id := "example.com"
  user_handle := none
  counter := none
  extensions := 0

/-- Claim C4 witness: a successful concrete save yields a success
response. -/
theorem save_is_commit_point_witness :
    ∃ resp, (make_credential (menv_base []) make_req_base).1 = .ok resp :=
  save_is_commit_point (menv_base []) make_req_base pk_built (by decide)

/-- Claim C4 counterexample (GetAssertion half): with an extension
processor that fails, the `update_credential` write succeeds and the
operation still returns an error afterwards — the store write is not the
last possible point of failure in `get_assertion` (the fallible
extension, authenticator-data and key-decoding steps at
get_assertion.rs lines 127-141 follow the update at lines 120-125). -/
theorem update_commit_counterexample :
    Event.updateCredential { pk_demo with counter := some 9001 } (.ok ()) ∈
      (get_assertion { genv_base [pk_demo] with
        get_extensions := fun _ _ _ => .error (.other 7) } get_req_base).2 ∧
    (get_assertion { genv_base [pk_demo] with
        get_extensions := fun _ _ _ => .error (.other 7) } get_req_base).1 =
      .error (.other 7) :=
  ⟨by decide, by decide⟩

/-- A stored credential used to exercise the exclude-list check. -/
def pk_excluded : Passkey where
  key := 0
  credential_id := 99
  rp_id := "example.com"
  user_handle := none
  counter := none
  extensions := 0

/-- Claim C5 (amended): provided user presence is requested and the
consent ceremony succeeds, a MakeCredential whose exclude-list holds a
credential id bound in the store to the request's relying party fails
with `CredentialExcluded` and performs no store write. -/
theorem exclude_match_fails_without_write (env : MakeEnv) (input : MakeRequest)
    (store : List Passkey) (l : List Descriptor) (d : Descriptor) (pk : Passkey)
    (flags : Flags)
    (hup : input.options.up = true)
    (hcu : env.check_user input.options none = .ok flags)
    (hfind : env.find_credentials = store_find store)
    (hex : input.exclude_list = some l)
    (hd : d ∈ l) (hpk : pk ∈ store)
    (hrp : pk.rp_id = input.rp.id) (hid : d.id = pk.credential_id) :
    (make_credential env input).1 = .error .credentialExcluded ∧
    ∀ e ∈ (make_credential env input).2, e.isWrite = false := by
  have hne : l ≠ [] := List.ne_nil_of_mem hd
  have hnel : nonempty_only input.exclude_list = some l := by
    rw [hex]
    simp [nonempty_only, List.isEmpty_iff, hne]
  have hmem : pk ∈ store.filter (fun c =>
      c.rp_id == input.rp.id &&
        match input.exclude_list with
        | none => true
        | some l2 => l2.any (fun d2 => d2.id == c.credential_id)) := by
    refine List.mem_filter.mpr ⟨hpk, ?_⟩
    rw [hex]
    simp only [Bool.and_eq_true, beq_iff_eq]
    exact ⟨hrp, List.any_eq_true.mpr ⟨d, hd, by simp [hid]⟩⟩
  have hfr : ∃ c cs, env.find_credentials input.exclude_list input.rp.id = .ok (c :: cs) := by
    rw [hfind, store_find]
    cases hl : store.filter (fun c =>
        c.rp_id == input.rp.id &&
          match input.exclude_list with
          | none => true
          | some l2 => l2.any (fun d2 => d2.id == c.credential_id)) with
    | nil =>
      rw [hl] at hmem
      cases hmem
    | cons c cs => exact ⟨c, cs, rfl⟩
  obtain ⟨c, cs, hfr⟩ := hfr
  rcases make_credential_cases env input with ⟨hupf, -⟩ |
    ⟨-, ⟨e, hcue, -⟩ | ⟨flags2, hcu2, heq⟩⟩
  · rw [hup] at hupf
    cases hupf
  · rw [hcu] at hcue
    cases hcue
  · rw [heq]
    rcases mc_after_consent_cases env input flags2 [Event.checkUser none (.ok flags2)] with
      ⟨hns, -⟩ | ⟨-, ⟨c0, cs0, -, heq2⟩ | ⟨hno, heq2⟩⟩
    · rw [hnel] at hns
      cases hns
    · rw [heq2]
      refine ⟨rfl, ?_⟩
      intro ev hev
      simp only [List.mem_append, List.mem_singleton, List.mem_cons,
        List.not_mem_nil, or_false] at hev
      rcases hev with hev | hev
      · rw [hev]; rfl
      · rw [hev, mc_find_event]; rfl
    · rcases hno with hno | ⟨e, hno⟩
      · rw [hfr] at hno
        cases hno
      · rw [hfr] at hno
        cases hno

/-- Claim C5 witness: a concrete exclude-list match fails with
`CredentialExcluded` and leaves the trace write-free. -/
theorem exclude_match_fails_without_write_witness :
    (make_credential (menv_base [pk_excluded])
      { make_req_base with exclude_list := some [{ id := 99 }] }).1 =
        .error .credentialExcluded ∧
    ∀ e ∈ (make_credential (menv_base [pk_excluded])
      { make_req_base with exclude_list := some [{ id := 99 }] }).2, e.isWrite = false :=
  exclude_match_fails_without_write (menv_base [pk_excluded])
    { make_req_base with exclude_list := some [{ id := 99 }] }
    [pk_excluded] [{ id := 99 }] { id := 99 } pk_excluded flags_uv
    rfl rfl rfl rfl (by decide) (by decide) rfl rfl

/-- Claim C5 counterexample: the same exclude-list match with user
presence not requested fails with `InvalidOption`, not
`CredentialExcluded` — the user-presence gate (make_credential.rs lines
19-23) fires before the exclude check, so the claim's unconditional
"fails with the CredentialExcluded error" is false. -/
theorem exclude_match_counterexample :
    ({ make_req_base with
        options := { rk := false, up := false, uv := true }
        exclude_list := some [{ id := 99 }] } : MakeRequest).exclude_list =
      some [{ id := 99 }] ∧
    pk_excluded.credential_id = 99 ∧
    pk_excluded.rp_id = ({ make_req_base with
        options := { rk := false, up := false, uv := true }
        exclude_list := some [{ id := 99 }] } : MakeRequest).rp.id ∧
    (make_credential (menv_base [pk_excluded])
      { make_req_base with
          options := { rk := false, up := false, uv := true }
          exclude_list := some [{ id := 99 }] }).1 = .error .invalidOption ∧
    (make_credential (menv_base [pk_excluded])
      { make_req_base with
          options := { rk := false, up := false, uv := true }
          exclude_list := some [{ id := 99 }] }).1 ≠ .error .credentialExcluded :=
  ⟨by decide, by decide, by decide, by decide, by decide⟩

/-- When an algorithm is selected and the "rk" capability gate trips,
`mc_after_exclude` fails with `UnsupportedOption`, trace untouched
(make_credential.rs lines 62-64). -/
theorem mc_after_exclude_rk_gate (env : MakeEnv) (input : MakeRequest) (flags : Flags)
    (t : List Event) (a : Int)
    (halg : env.choose_algorithm input.pub_key_cred_params = .ok a)
    (hrk : input.options.rk = true) (hinfo : env.get_info_rk = false) :
    mc_after_exclude env input flags t = (.error .unsupportedOption, t) := by
  simp [mc_after_exclude, halg, hrk, hinfo]

/-- Claim C8 (amended): provided user presence is requested, consent
succeeds, the exclude check passes (empty/absent list or no match) and
an algorithm is selected, a MakeCredential requesting resident-key
against a store reporting only non-discoverable support fails with
`UnsupportedOption` and never calls `save_credential`; `find_credentials`
is called only for the exclude check, so with no exclude-list supplied
no find call is made either. -/
theorem rk_unsupported_no_store_write (env : MakeEnv) (input : MakeRequest) (flags : Flags)
    (hup : input.options.up = true)
    (hcu : env.check_user input.options none = .ok flags)
    (hrk : input.options.rk = true)
    (hinfo : env.get_info_rk = false)
    (halg : ∃ a, env.choose_algorithm input.pub_key_cred_params = .ok a)
    (hexc : nonempty_only input.exclude_list = none ∨
      env.find_credentials input.exclude_list input.rp.id = .ok []) :
    (make_credential env input).1 = .error .unsupportedOption ∧
    (∀ c r, Event.saveCredential c r ∉ (make_credential env input).2) ∧
    (input.exclude_list = none →
      ∀ ids rp r, Event.findCredentials ids rp r ∉ (make_credential env input).2) := by
  obtain ⟨a, halg⟩ := halg
  rcases make_credential_cases env input with ⟨hupf, -⟩ |
    ⟨-, ⟨e, hcue, -⟩ | ⟨flags2, hcu2, heq⟩⟩
  · rw [hup] at hupf
    cases hupf
  · rw [hcu] at hcue
    cases hcue
  · rw [heq]
    rcases mc_after_consent_cases env input flags2 [Event.checkUser none (.ok flags2)] with
      ⟨hns, heq2⟩ | ⟨hns, ⟨c0, cs0, hfr2, heq2⟩ | ⟨hno, heq2⟩⟩
    · rw [heq2, mc_after_exclude_rk_gate env input flags2 _ a halg hrk hinfo]
      refine ⟨rfl, ?_, ?_⟩
      · intro c r hmem
        simp only [List.mem_singleton] at hmem
        cases hmem
      · intro _ ids rp r hmem
        simp only [List.mem_singleton] at hmem
        cases hmem
    · rcases hexc with hexc | hexc
      · rw [hexc] at hns
        cases hns
      · rw [hexc] at hfr2
        cases hfr2
    · rw [heq2, mc_after_exclude_rk_gate env input flags2 _ a halg hrk hinfo]
      refine ⟨rfl, ?_, ?_⟩
      · intro c r hmem
        simp only [List.mem_append, List.mem_singleton, List.mem_cons,
          List.not_mem_nil, or_false] at hmem
        rcases hmem with hmem | hmem
        · cases hmem
        · rw [mc_find_event] at hmem
          cases hmem
      · intro hnone
        rw [hnone] at hns
        cases hns

/-- Claim C8 witness: a concrete resident-key MakeCredential against a
non-discoverable-only store fails with `UnsupportedOption`, with no save
and (no exclude list being supplied) no find call. -/
theorem rk_unsupported_no_store_write_witness :
    (make_credential { menv_base [] with get_info_rk := false }
      { make_req_base with options := { rk := true, up := true, uv := true } }).1 =
        .error .unsupportedOption ∧
    (∀ c r, Event.saveCredential c r ∉ (make_credential { menv_base [] with
        get_info_rk := false }
      { make_req_base with options := { rk := true, up := true, uv := true } }).2) ∧
    (({ make_req_base with
        options := { rk := true, up := true, uv := true } } : MakeRequest).exclude_list =
          none →
      ∀ ids rp r, Event.findCredentials ids rp r ∉
        (make_credential { menv_base [] with get_info_rk := false }
          { make_req_base with options := { rk := true, up := true, uv := true } }).2) :=
  rk_unsupported_no_store_write { menv_base [] with get_info_rk := false }
    { make_req_base with options := { rk := true, up := true, uv := true } } flags_uv
    rfl rfl rfl rfl ⟨-7, rfl⟩ (Or.inl rfl)

/-- Claim C8 counterexample: the same resident-key request carrying a
non-matching, non-empty exclude-list does reach the store:
`find_credentials` is called for the exclude check (make_credential.rs
lines 31-45 precede the rk capability gate at lines 62-64), so the
claim's "makes no call to find_credentials" is false. -/
theorem rk_unsupported_find_counterexample :
    (make_credential { menv_base [] with get_info_rk := false }
      { make_req_base with
          options := { rk := true, up := true, uv := true }
          exclude_list := some [{ id := 99 }] }).1 = .error .unsupportedOption ∧
    Event.findCredentials (some [{ id := 99 }]) "example.com" (.ok []) ∈
      (make_credential { menv_base [] with get_info_rk := false }
        { make_req_base with
            options := { rk := true, up := true, uv := true }
            exclude_list := some [{ id := 99 }] }).2 :=
  ⟨by decide, by decide⟩

/-- Claim C7 (amended): provided `pin_auth` is absent, every GetAssertion
request with the resident-key option set fails with `UnsupportedOption`. -/
theorem get_assertion_rk_unsupported (env : GetEnv) (input : GetRequest)
    (hpin : input.pin_auth = none) (hrk : input.options.rk = true) :
    (get_assertion env input).1 = .error .unsupportedOption := by
  rcases get_assertion_cases env input with ⟨hp, heq⟩ | ⟨hp, hr, heq⟩ | ⟨hp, hr, -⟩
  · rw [hpin] at hp
    cases hp
  · rw [heq]
  · rw [hrk] at hr
    cases hr

/-- Claim C7 witness: a resident-key GetAssertion request without
pinAuth fails with `UnsupportedOption`. -/
theorem get_assertion_rk_unsupported_witness :
    (get_assertion (genv_base [])
      { get_req_base with options := { rk := true, up := true, uv := true } }).1 =
      .error .unsupportedOption :=
  get_assertion_rk_unsupported _ _ rfl rfl

/-- Claim C7 counterexample: with the resident-key flag set and pinAuth
present, `get_assertion` returns `PinAuthInvalid`, not
`UnsupportedOption` — the pinAuth gate precedes the "rk" gate
(get_assertion.rs lines 53-70), so the claim's "regardless of whether
pin_auth is present" fails. -/
theorem get_assertion_rk_with_pin_counterexample :
    (get_assertion (genv_base [])
      { get_req_base with
          options := { rk := true, up := true, uv := true }
          pin_auth := some [0] }).1 = .error .pinAuthInvalid ∧
    (get_assertion (genv_base [])
      { get_req_base with
          options := { rk := true, up := true, uv := true }
          pin_auth := some [0] }).1 ≠ .error .unsupportedOption := by
  exact ⟨by decide, by decide⟩

/-- Any `updateCredential` event produced by `ga_after_consent` concerns
the counter-incremented copy of the located credential, records the
store's answer, and an error answer becomes the operation's outcome. -/
theorem ga_after_consent_update_mem (env : GetEnv) (input : GetRequest) (flags : Flags)
    (credential : Passkey) (t : List Event) (c : Passkey) (r : Except StatusCode Unit)
    (h : Event.updateCredential c r ∈ (ga_after_consent env input flags credential t).2) :
    Event.updateCredential c r ∈ t ∨
    (∃ n, credential.counter = some n ∧
      c = { credential with counter := some (next_counter n) } ∧
      r = env.update_credential c ∧
      (∀ e, r = .error e →
        (ga_after_consent env input flags credential t).1 = .error e)) := by
  cases hc : credential.counter with
  | none =>
    obtain ⟨t2, htr, hall⟩ := ga_sign_trace env input flags credential t
    have htr2 : (ga_after_consent env input flags credential t).2 =
        (ga_sign env input flags credential t).2 := by
      simp [ga_after_consent, hc]
    rw [htr2, htr] at h
    rcases List.mem_append.mp h with h | h
    · exact Or.inl h
    · have := hall _ h
      cases this
  | some n =>
    cases hu : env.update_credential { credential with counter := some (next_counter n) } with
    | error e2 =>
      have heq : ga_after_consent env input flags credential t =
          (.error e2, t ++ [Event.updateCredential
            { credential with counter := some (next_counter n) } (.error e2)]) := by
        simp [ga_after_consent, hc, hu]
      rw [heq] at h
      rcases List.mem_append.mp h with h | h
      · exact Or.inl h
      · simp only [List.mem_singleton, Event.updateCredential.injEq] at h
        obtain ⟨hcc, hrr⟩ := h
        subst hcc
        refine Or.inr ⟨n, rfl, rfl, by rw [hrr, hu], ?_⟩
        intro e he
        rw [heq]
        rw [hrr] at he
        cases he
        rfl
    | ok u =>
      have heq : ga_after_consent env input flags credential t =
          ga_sign env input flags { credential with counter := some (next_counter n) }
            (t ++ [Event.updateCredential
              { credential with counter := some (next_counter n) } (.ok u)]) := by
        simp [ga_after_consent, hc, hu]
      obtain ⟨t2, htr, hall⟩ := ga_sign_trace env input flags
        { credential with counter := some (next_counter n) }
        (t ++ [Event.updateCredential
          { credential with counter := some (next_counter n) } (.ok u)])
      rw [heq, htr] at h
      rcases List.mem_append.mp h with h | h
      · rcases List.mem_append.mp h with h | h
        · exact Or.inl h
        · simp only [List.mem_singleton, Event.updateCredential.injEq] at h
          obtain ⟨hcc, hrr⟩ := h
          subst hcc
          refine Or.inr ⟨n, rfl, rfl, by rw [hrr, hu], ?_⟩
          intro e he
          rw [hrr] at he
          cases he
      · have := hall _ h
        cases this

/-- Claim C6 (amended): store errors from GetAssertion's
`update_credential`, from MakeCredential's `save_credential`, and from
GetAssertion's lookup (surfaced after the pin/rk gates and consent) are
returned verbatim; but a store error during MakeCredential's
exclude-list lookup is swallowed (`if let Ok(false)` at
make_credential.rs lines 37-44) and the operation proceeds exactly as if
the lookup had found no excluded credential. -/
theorem store_error_propagation :
    (∀ (env : GetEnv) (input : GetRequest) (c : Passkey) (e : StatusCode),
      Event.updateCredential c (.error e) ∈ (get_assertion env input).2 →
      (get_assertion env input).1 = .error e) ∧
    (∀ (env : MakeEnv) (input : MakeRequest) (c : Passkey) (e : StatusCode),
      Event.saveCredential c (.error e) ∈ (make_credential env input).2 →
      (make_credential env input).1 = .error e) ∧
    (∀ (env : GetEnv) (input : GetRequest) (e : StatusCode) (flags : Flags),
      input.pin_auth = none → input.options.rk = false →
      env.find_credentials (nonempty_only input.allow_list) input.rp_id = .error e →
      env.check_user input.options none = .ok flags →
      (get_assertion env input).1 = .error e) ∧
    (∀ (env : MakeEnv) (input : MakeRequest) (flags : Flags) (e : StatusCode),
      input.options.up = true →
      env.check_user input.options none = .ok flags →
      (nonempty_only input.exclude_list).isSome = true →
      env.find_credentials input.exclude_list input.rp.id = .error e →
      (make_credential env input).1 =
        (mc_after_exclude env input flags
          [Event.checkUser none (.ok flags), mc_find_event env input]).1) := by
  refine ⟨?_, ?_, ?_, ?_⟩
  · intro env input c e h
    rcases get_assertion_cases env input with ⟨-, heq⟩ | ⟨-, -, heq⟩ |
      ⟨-, -, ⟨e2, -, heq⟩ | ⟨flags, e2, -, -, heq⟩ | ⟨flags, credential, -, -, heq⟩⟩
    · rw [heq] at h
      simp only [List.mem_singleton] at h
      rw [ga_find_event] at h
      cases h
    · rw [heq] at h
      simp only [List.mem_singleton] at h
      rw [ga_find_event] at h
      cases h
    · rw [heq] at h
      simp only [List.mem_cons, List.not_mem_nil, or_false] at h
      rcases h with h | h
      · rw [ga_find_event] at h
        cases h
      · rw [ga_consent_event] at h
        cases h
    · rw [heq] at h
      simp only [List.mem_cons, List.not_mem_nil, or_false] at h
      rcases h with h | h
      · rw [ga_find_event] at h
        cases h
      · rw [ga_consent_event] at h
        cases h
    · rw [heq] at h ⊢
      rcases ga_after_consent_update_mem env input flags credential _ c (.error e) h with
        h2 | ⟨n, -, -, -, hprop⟩
      · simp only [List.mem_cons, List.not_mem_nil, or_false] at h2
        rcases h2 with h2 | h2
        · rw [ga_find_event] at h2
          cases h2
        · rw [ga_consent_event] at h2
          cases h2
      · exact hprop e rfl
  · intro env input c e h
    obtain ⟨-, -, -, -, hres⟩ := make_save_event env input c (.error e) h
    rcases hres with ⟨e2, he2, hout⟩ | ⟨u, resp, habs, -⟩
    · cases he2
      exact hout
    · cases habs
  · intro env input e flags hpin hrk hf hcu
    have hloc : located_credential env input = .error e := by
      simp [located_credential, hf]
    rcases get_assertion_cases env input with ⟨hp, -⟩ | ⟨-, hr, -⟩ |
      ⟨-, -, ⟨e2, hcu2, heq⟩ | ⟨flags2, e2, -, hmc, heq⟩ | ⟨flags2, credential, -, hmc, -⟩⟩
    · rw [hpin] at hp
      cases hp
    · rw [hrk] at hr
      cases hr
    · rw [hloc] at hcu2
      simp only [Except.toOption] at hcu2
      rw [hcu] at hcu2
      cases hcu2
    · rw [hloc] at hmc
      cases hmc
      rw [heq]
    · rw [hloc] at hmc
      cases hmc
  · intro env input flags e hup hcu hsome hf
    rcases make_credential_cases env input with ⟨hupf, -⟩ |
      ⟨-, ⟨e2, hcue, -⟩ | ⟨flags2, hcu2, heq⟩⟩
    · rw [hup] at hupf
      cases hupf
    · rw [hcu] at hcue
      cases hcue
    · rw [hcu] at hcu2
      cases hcu2
      rw [heq]
      rcases mc_after_consent_cases env input flags [Event.checkUser none (.ok flags)] with
        ⟨hns, -⟩ | ⟨-, ⟨c0, cs0, hfr2, -⟩ | ⟨-, heq2⟩⟩
      · rw [hsome] at hns
        cases hns
      · rw [hf] at hfr2
        cases hfr2
      · rw [heq2]
        rfl

/-- Claim C6 witness: concrete instances of all four propagation facts. -/
theorem store_error_propagation_witness :
    (get_assertion { genv_base [pk_demo] with
        update_credential := fun _ => .error (.other 5) } get_req_base).1 =
      .error (.other 5) ∧
    (make_credential { menv_base [] with
        save_credential := fun _ _ _ _ => .error (.other 9) } make_req_base).1 =
      .error (.other 9) ∧
    (get_assertion { genv_base [] with
        find_credentials := fun _ _ => .error (.other 11) } get_req_base).1 =
      .error (.other 11) ∧
    (make_credential { menv_base [] with
        find_credentials := fun _ _ => .error (.other 13) }
      { make_req_base with exclude_list := some [{ id := 1 }] }).1 =
      (mc_after_exclude { menv_base [] with
          find_credentials := fun _ _ => .error (.other 13) }
        { make_req_base with exclude_list := some [{ id := 1 }] } flags_uv
        [Event.checkUser none (.ok flags_uv),
          mc_find_event { menv_base [] with
            find_credentials := fun _ _ => .error (.other 13) }
          { make_req_base with exclude_list := some [{ id := 1 }] }]).1 :=
  ⟨store_error_propagation.1 _ _ { pk_demo with counter := some 9001 } (.other 5) (by decide),
   store_error_propagation.2.1 _ _ pk_built (.other 9) (by decide),
   store_error_propagation.2.2.1 _ _ (.other 11) flags_uv rfl rfl rfl rfl,
   store_error_propagation.2.2.2 _ _ flags_uv (.other 13) rfl rfl (by decide) rfl⟩

/-- Claim C6 counterexample: a store error during the MakeCredential
exclude-list lookup is NOT returned — the run records the failed lookup
yet completes successfully, because `if let Ok(false)` ignores the `Err`
case (make_credential.rs lines 37-44). -/
theorem exclude_lookup_error_swallowed_counterexample :
    Event.findCredentials (some [{ id := 1 }]) "example.com" (.error (.other 13)) ∈
      (make_credential { menv_base [] with
          find_credentials := fun _ _ => .error (.other 13) }
        { make_req_base with exclude_list := some [{ id := 1 }] }).2 ∧
    (make_credential { menv_base [] with
        find_credentials := fun _ _ => .error (.other 13) }
      { make_req_base with exclude_list := some [{ id := 1 }] }).1 ≠
      .error (.other 13) ∧
    ((make_credential { menv_base [] with
        find_credentials := fun _ _ => .error (.other 13) }
      { make_req_base with exclude_list := some [{ id := 1 }] }).1.toOption).isSome =
      true :=
  ⟨by decide, by decide, by decide⟩

/-- A successful `ga_sign` returns an authenticator-data counter equal to
the signed credential's counter and appends exactly the `signed` marker. -/
theorem ga_sign_ok (env : GetEnv) (input : GetRequest) (flags : Flags)
    (credential : Passkey) (t : List Event) (resp : GetResponse)
    (h : (ga_sign env input flags credential t).1 = .ok resp) :
    resp.auth_data.counter = credential.counter ∧
    (ga_sign env input flags credential t).2 = t ++ [Event.signed] := by
  cases h1 : env.get_extensions credential input.extensions flags.uv with
  | error e =>
    rw [ga_sign] at h
    simp only [h1] at h
    cases h
  | ok exts =>
    cases h2 : env.set_assertion_extensions exts.signed with
    | error e =>
      rw [ga_sign] at h
      simp only [h1, h2] at h
      cases h
    | ok ext_data =>
      cases h3 : env.private_key_from_cose_key credential.key with
      | error e =>
        rw [ga_sign] at h
        simp only [h1, h2, h3] at h
        cases h
      | ok sk =>
        rw [ga_sign] at h
        simp only [h1, h2, h3, Except.ok.injEq] at h
        constructor
        · rw [← h]
        · simp [ga_sign, h1, h2, h3]

/-- When the located credential has an active counter, `ga_after_consent`
always records the `update_credential` call on the counter-incremented
copy. -/
theorem ga_after_consent_update_occurs (env : GetEnv) (input : GetRequest) (flags : Flags)
    (credential : Passkey) (t : List Event) (n : Nat)
    (hc : credential.counter = some n) :
    Event.updateCredential { credential with counter := some (next_counter n) }
      (env.update_credential { credential with counter := some (next_counter n) }) ∈
      (ga_after_consent env input flags credential t).2 := by
  cases hu : env.update_credential { credential with counter := some (next_counter n) } with
  | error e =>
    have heq : (ga_after_consent env input flags credential t).2 =
        t ++ [Event.updateCredential { credential with counter := some (next_counter n) }
          (.error e)] := by
      simp [ga_after_consent, hc, hu]
    rw [heq]
    exact List.mem_append_right _ (List.mem_singleton.mpr rfl)
  | ok u =>
    have heq : (ga_after_consent env input flags credential t).2 =
        (ga_sign env input flags { credential with counter := some (next_counter n) }
          (t ++ [Event.updateCredential { credential with counter := some (next_counter n) }
            (.ok u)])).2 := by
      simp [ga_after_consent, hc, hu]
    obtain ⟨t2, htr, -⟩ := ga_sign_trace env input flags
      { credential with counter := some (next_counter n) }
      (t ++ [Event.updateCredential { credential with counter := some (next_counter n) }
        (.ok u)])
    rw [heq, htr]
    refine List.mem_append_left _ ?_
    exact List.mem_append_right _ (List.mem_singleton.mpr rfl)

/-- Claim C2 (amended): a successful GetAssertion on a credential with an
active counter `n` records — before the final signing — one successful
`update_credential` store write persisting the counter as
`(n + 1) mod 2^32`, and the returned authenticator-data counter equals
that persisted value.  (For `n` below the u32 maximum this is exactly
`n + 1`.) -/
theorem get_assertion_counter_increment (env : GetEnv) (input : GetRequest)
    (credential : Passkey) (rest : List Passkey) (n : Nat) (resp : GetResponse)
    (hfind : env.find_credentials (nonempty_only input.allow_list) input.rp_id =
      .ok (credential :: rest))
    (hctr : credential.counter = some n)
    (hok : (get_assertion env input).1 = .ok resp) :
    resp.auth_data.counter = some (next_counter n) ∧
    ∃ flags, (get_assertion env input).2 =
      [ga_find_event env input,
       Event.checkUser (some credential) (.ok flags),
       Event.updateCredential { credential with counter := some (next_counter n) } (.ok ()),
       Event.signed] := by
  have hloc : located_credential env input = .ok credential := by
    simp [located_credential, hfind]
  have harg : (located_credential env input).toOption = some credential := by
    rw [hloc]
    rfl
  rcases get_assertion_cases env input with ⟨-, heq⟩ | ⟨-, -, heq⟩ |
    ⟨-, -, ⟨e, -, heq⟩ | ⟨flags, e, -, -, heq⟩ | ⟨flags, credential2, hcu, hmc, heq⟩⟩
  · rw [heq] at hok
    cases hok
  · rw [heq] at hok
    cases hok
  · rw [heq] at hok
    cases hok
  · rw [heq] at hok
    cases hok
  · rw [hloc] at hmc
    cases hmc
    rw [heq] at hok ⊢
    cases hu : env.update_credential { credential with counter := some (next_counter n) } with
    | error e2 =>
      have hres : (ga_after_consent env input flags credential
          [ga_find_event env input, ga_consent_event env input]).1 = .error e2 := by
        simp [ga_after_consent, hctr, hu]
      rw [hres] at hok
      cases hok
    | ok u =>
      cases u
      have heq2 : ga_after_consent env input flags credential
          [ga_find_event env input, ga_consent_event env input] =
          ga_sign env input flags { credential with counter := some (next_counter n) }
            ([ga_find_event env input, ga_consent_event env input] ++
              [Event.updateCredential { credential with counter := some (next_counter n) }
                (.ok ())]) := by
        simp [ga_after_consent, hctr, hu]
      rw [heq2] at hok ⊢
      obtain ⟨hcnt, htr⟩ := ga_sign_ok env input flags _ _ resp hok
      refine ⟨by rw [hcnt], flags, ?_⟩
      rw [htr]
      rw [harg] at hcu
      have hce : ga_consent_event env input = Event.checkUser (some credential) (.ok flags) := by
        rw [ga_consent_event, harg, hcu]
      rw [hce]
      rfl

/-- The concrete response of the baseline successful assertion over
`pk_demo` (counter 9000). -/
def ga_resp_demo : GetResponse where
  credential := some { id := 10 }
  auth_data :=
    { rp_id := "example.com"
      counter := some 9001
      flags := flags_uv
      attested_credential_data := none
      extensions := none }
  signature := [1]
  user := none
  number_of_credentials := none
  unsigned_extension_outputs := none

/-- Claim C2 witness: the spec's own 9000 → 9001 example, with the full
event trace (find, consent, successful update, then signing). -/
theorem get_assertion_counter_increment_witness :
    ga_resp_demo.auth_data.counter = some (next_counter 9000) ∧
    ∃ flags, (get_assertion (genv_base [pk_demo]) get_req_base).2 =
      [ga_find_event (genv_base [pk_demo]) get_req_base,
       Event.checkUser (some pk_demo) (.ok flags),
       Event.updateCredential { pk_demo with counter := some (next_counter 9000) } (.ok ()),
       Event.signed] :=
  get_assertion_counter_increment (genv_base [pk_demo]) get_req_base pk_demo [] 9000
    ga_resp_demo (by decide) rfl (by decide)

/-- The stored credential whose counter sits at the u32 maximum. -/
def pk_max : Passkey := { pk_demo with counter := some (2 ^ 32 - 1) }

/-- Claim C2 counterexample: with the counter at the u32 maximum
4294967295, the persisted and returned counter is 0, not n + 1 — the
increment `counter + 1` (get_assertion.rs line 121) is a fixed-width u32
addition, so "persists the counter as exactly n+1" fails at the
boundary. -/
theorem counter_increment_wrap_counterexample :
    pk_max.counter = some 4294967295 ∧
    Except.map (fun r => r.auth_data.counter)
      (get_assertion (genv_base [pk_max]) get_req_base).1 = .ok (some 0) ∧
    Event.updateCredential { pk_max with counter := some 0 } (.ok ()) ∈
      (get_assertion (genv_base [pk_max]) get_req_base).2 ∧
    (some 0 : Option Nat) ≠ some (4294967295 + 1) :=
  ⟨by decide, by decide, by decide, by decide⟩

/-- Claim C9 (amended): a store write never rebinds a credential —
GetAssertion's update writes back the located credential with only the
counter field replaced by `(n + 1) mod 2^32`, and MakeCredential's save
writes a credential bound to the request's relying party with counter
`some 0` or absent per configuration; the replaced counter is strictly
larger whenever the previous value is below the u32 maximum (at the
maximum it wraps to 0, see the counterexample). -/
theorem credential_invariant :
    (∀ (env : GetEnv) (input : GetRequest) (c : Passkey) (r : Except StatusCode Unit),
      Event.updateCredential c r ∈ (get_assertion env input).2 →
      ∃ cred0 n, located_credential env input = .ok cred0 ∧ cred0.counter = some n ∧
        c = { cred0 with counter := some (next_counter n) }) ∧
    (∀ (env : MakeEnv) (input : MakeRequest) (c : Passkey) (r : Except StatusCode Unit),
      Event.saveCredential c r ∈ (make_credential env input).2 →
      c.rp_id = input.rp.id ∧
      c.counter = (if env.make_credentials_with_signature_counter then some 0 else none)) ∧
    (∀ n : Nat, n + 1 < 2 ^ 32 → n < next_counter n) := by
  refine ⟨?_, ?_, ?_⟩
  · intro env input c r h
    rcases get_assertion_cases env input with ⟨-, heq⟩ | ⟨-, -, heq⟩ |
      ⟨-, -, ⟨e, -, heq⟩ | ⟨flags, e, -, -, heq⟩ | ⟨flags, credential, -, hmc, heq⟩⟩
    · rw [heq] at h
      simp only [List.mem_singleton] at h
      rw [ga_find_event] at h
      cases h
    · rw [heq] at h
      simp only [List.mem_singleton] at h
      rw [ga_find_event] at h
      cases h
    · rw [heq] at h
      simp only [List.mem_cons, List.not_mem_nil, or_false] at h
      rcases h with h | h
      · rw [ga_find_event] at h
        cases h
      · rw [ga_consent_event] at h
        cases h
    · rw [heq] at h
      simp only [List.mem_cons, List.not_mem_nil, or_false] at h
      rcases h with h | h
      · rw [ga_find_event] at h
        cases h
      · rw [ga_consent_event] at h
        cases h
    · rw [heq] at h
      rcases ga_after_consent_update_mem env input flags credential _ c r h with
        h2 | ⟨n, hc, hcc, -, -⟩
      · simp only [List.mem_cons, List.not_mem_nil, or_false] at h2
        rcases h2 with h2 | h2
        · rw [ga_find_event] at h2
          cases h2
        · rw [ga_consent_event] at h2
          cases h2
      · exact ⟨credential, n, hmc, hc, hcc⟩
  · intro env input c r h
    obtain ⟨-, hrp, hcnt, -, -⟩ := make_save_event env input c r h
    exact ⟨hrp, hcnt⟩
  · intro n hlt
    rw [next_counter, Nat.mod_eq_of_lt hlt]
    exact Nat.lt_succ_self n

/-- Claim C9 witness: concrete instances of all three invariant parts. -/
theorem credential_invariant_witness :
    (∃ cred0 n, located_credential (genv_base [pk_demo]) get_req_base = .ok cred0 ∧
      cred0.counter = some n ∧
      ({ pk_demo with counter := some 9001 } : Passkey) =
        { cred0 with counter := some (next_counter n) }) ∧
    (pk_built.rp_id = make_req_base.rp.id ∧
      pk_built.counter =
        (if (menv_base []).make_credentials_with_signature_counter then some 0 else none)) ∧
    (5 : Nat) < next_counter 5 :=
  ⟨credential_invariant.1 (genv_base [pk_demo]) get_req_base
      { pk_demo with counter := some 9001 } (.ok ()) (by decide),
   credential_invariant.2.1 (menv_base []) make_req_base pk_built (.ok ()) (by decide),
   credential_invariant.2.2 5 (by decide)⟩

/-- Claim C9 counterexample: at the u32 maximum the update replaces the
counter 4294967295 by 0, which is not strictly larger — the
"once present, only increases" half of the invariant fails at the wrap
boundary. -/
theorem counter_monotonic_counterexample :
    Event.updateCredential { pk_max with counter := some 0 } (.ok ()) ∈
      (get_assertion (genv_base [pk_max])
        { get_req_base with allow_list := some [{ id := 10 }] }).2 ∧
    pk_max.counter = some 4294967295 ∧ ¬ (4294967295 < (0 : Nat)) :=
  ⟨by decide, by decide, by decide⟩

/-- Claim C10: the signature-counter increment is an unguarded
fixed-width u32 addition — with the counter at 2^32 - 1 the value
computed, persisted via `update_credential`, is
`(counter + 1) mod 2^32 = 0` rather than a larger value. -/
theorem counter_increment_wraps (env : GetEnv) (input : GetRequest)
    (credential : Passkey) (rest : List Passkey) (flags : Flags)
    (hfind : env.find_credentials (nonempty_only input.allow_list) input.rp_id =
      .ok (credential :: rest))
    (hctr : credential.counter = some (2 ^ 32 - 1))
    (hpin : input.pin_auth = none) (hrk : input.options.rk = false)
    (hcu : env.check_user input.options (some credential) = .ok flags) :
    next_counter (2 ^ 32 - 1) = 0 ∧
    Event.updateCredential { credential with counter := some 0 }
      (env.update_credential { credential with counter := some 0 }) ∈
      (get_assertion env input).2 := by
  have h0 : next_counter (2 ^ 32 - 1) = 0 := by decide
  refine ⟨h0, ?_⟩
  have hloc : located_credential env input = .ok credential := by
    simp [located_credential, hfind]
  have harg : (located_credential env input).toOption = some credential := by
    rw [hloc]
    rfl
  rcases get_assertion_cases env input with ⟨hp, -⟩ | ⟨-, hr, -⟩ |
    ⟨-, -, ⟨e, hcu2, -⟩ | ⟨flags2, e, -, hmc, -⟩ | ⟨flags2, credential2, -, hmc, heq⟩⟩
  · rw [hpin] at hp
    cases hp
  · rw [hrk] at hr
    cases hr
  · rw [harg] at hcu2
    rw [hcu] at hcu2
    cases hcu2
  · rw [hloc] at hmc
    cases hmc
  · rw [hloc] at hmc
    cases hmc
    rw [heq]
    have hocc := ga_after_consent_update_occurs env input flags2 credential
      [ga_find_event env input, ga_consent_event env input] (2 ^ 32 - 1) hctr
    rw [h0] at hocc
    exact hocc

/-- Claim C10 witness: a concrete credential at the u32 maximum is
persisted with counter 0. -/
theorem counter_increment_wraps_witness :
    next_counter (2 ^ 32 - 1) = 0 ∧
    Event.updateCredential { pk_max with counter := some 0 }
      ((genv_base [pk_max]).update_credential { pk_max with counter := some 0 }) ∈
      (get_assertion (genv_base [pk_max]) get_req_base).2 :=
  counter_increment_wraps (genv_base [pk_max]) get_req_base pk_max [] flags_uv
    (by decide) rfl rfl rfl rfl
